import Mathlib

/-!
# Verification of the Cisco-Network-Tool analyzer core

Shallow embedding of `src/analyzer/analyzer.py`:
* `parse_config_file` (line-oriented config parsing),
* `build_topology` (link inference from interface addressing, including the
  exception behaviour of the Python code: the `try` block catches only
  `ValueError`/`AddressValueError`, so a `KeyError` raised by the
  `int_details["subnet_mask"]` lookup propagates),
* `NetworkSwitch` (`send_packet` / `receive_packet` over a `defaultdict` of
  FIFO queues, modelled as an association list of queues),
* `Router` (`__init__` neighbor derivation and the `run` loop, with
  `time.time()` readings supplied as explicit integer inputs and the sends
  performed by a loop iteration also returned as an explicit trace),
* the menu branch of `main` that starts a simulation (`Simulation is already
  running.` guard).

Machine-level details of CPython that the code relies on are modelled
faithfully where the claims depend on them: dictionary lookups that can raise
`KeyError`, `list.__repr__`, `str.split`, `str.strip`, `str.startswith`, and
the `ipaddress.IPv4Interface("addr/mask").network` computation (dotted-quad
parsing with the modern no-leading-zero rule, prefix-length / netmask /
hostmask forms, network equality as equality of masked address and prefix).
-/

namespace NetworkTool

/-! ## Python exceptions that can escape the embedded functions -/

inductive PyErr where
  | keyError (key : String)
  | indexError
deriving DecidableEq, Repr

/-! ## Character-list string utilities (Python `str.split`, `str.strip`) -/

/-- Split a character list at every character satisfying `p`, keeping empty
groups, as Python `str.split(sep)` does for a one-character separator. -/
def splitChars (p : Char → Bool) : List Char → List (List Char)
  | [] => [[]]
  | c :: rest =>
    match splitChars p rest with
    | [] => if p c then [[], []] else [[c]]
    | g :: gs => if p c then [] :: g :: gs else (c :: g) :: gs

/-- Python `str.split()` with no argument: split on whitespace runs and drop
empty tokens. -/
def pySplitWs (cs : List Char) : List String :=
  ((splitChars Char.isWhitespace cs).filter (fun g => !g.isEmpty)).map
    (fun g => String.mk g)

/-- Python `str.strip()`: remove leading and trailing whitespace. -/
def pyStrip (cs : List Char) : List Char :=
  ((cs.dropWhile Char.isWhitespace).reverse.dropWhile Char.isWhitespace).reverse

/-- Python `" ".join l`. -/
def joinSpace : List String → String
  | [] => ""
  | [x] => x
  | x :: xs => x ++ " " ++ joinSpace xs

/-! ## IPv4 parsing (`ipaddress.IPv4Interface("addr/mask").network`) -/

/-- Numeric value of a list of decimal digit characters. -/
def digitsVal (cs : List Char) : Nat :=
  cs.foldl (fun n c => 10 * n + (c.toNat - 48)) 0

/-- One dotted-quad octet, as in CPython `ipaddress._parse_octet`: only
decimal digits, at most three of them, no leading zero, value at most 255. -/
def parseOctet (cs : List Char) : Option Nat :=
  if cs.isEmpty then none
  else if 3 < cs.length then none
  else if !(cs.all Char.isDigit) then none
  else if 1 < cs.length && cs.head? == some '0' then none
  else
    let v := digitsVal cs
    if v ≤ 255 then some v else none

/-- A dotted-quad IPv4 address as a 32-bit numeric value. -/
def parseIPv4 (s : String) : Option Nat :=
  match (splitChars (fun c => c == '.') s.data).mapM parseOctet with
  | some [a, b, c, d] => some (((a * 256 + b) * 256 + c) * 256 + d)
  | _ => none

/-- The 32-bit netmask value for a prefix length `p ≤ 32`. -/
def maskVal (p : Nat) : Nat := 4294967296 - 2 ^ (32 - p)

/-- The prefix length of a 32-bit value that is a valid netmask
(contiguous high ones), as in CPython `ipaddress._prefix_from_ip_int`. -/
def prefixOfNetmask (m : Nat) : Option Nat :=
  (List.range 33).find? (fun p => maskVal p == m)

/-- The mask part of `IPv4Interface("addr/mask")`, as in CPython
`ipaddress._make_netmask`: first a pure decimal prefix length, then a
dotted-quad netmask, then a dotted-quad hostmask; the result is the prefix
length. -/
def parseMask (s : String) : Option Nat :=
  if !s.data.isEmpty && s.data.all Char.isDigit then
    let v := digitsVal s.data
    if v ≤ 32 then some v else none
  else
    match parseIPv4 s with
    | none => none
    | some m =>
      match prefixOfNetmask m with
      | some p => some p
      | none => prefixOfNetmask (Nat.xor m 4294967295)

/-- `IPv4Interface(addr ++ "/" ++ mask).network`, as a pair of the masked
network address and the prefix length; `none` models the `ValueError` the
Python code catches. IPv4Network equality compares exactly these two
components. -/
def ipv4Network (addr mask : String) : Option (Nat × Nat) :=
  match parseIPv4 addr, parseMask mask with
  | some a, some p => some (Nat.land a (maskVal p), p)
  | _, _ => none

/-! ## Data model (`parse_config_file` output shape) -/

/-- One interface record: a Python dict with optional keys `description`,
`ip_address`, `subnet_mask`. -/
structure Interface where
  description : Option String := none
  ip_address : Option String := none
  subnet_mask : Option String := none
deriving DecidableEq, Repr

/-- One device record as produced by `parse_config_file`: the `hostname` key
is always present (initialized to Python `None`, i.e. `Option.none`), and
`interfaces` is an insertion-ordered dict from interface name to record. -/
structure Device where
  hostname : Option String := none
  interfaces : List (String × Interface) := []
  default_route : Option String := none
  ospf_enabled : Bool := false
deriving DecidableEq, Repr

/-- One inferred link, as the dict appended by `build_topology`. -/
structure Link where
  from_device : String
  from_interface : String
  to_device : String
  to_interface : String
deriving DecidableEq, Repr

/-! ## `build_topology` -/

/-- The body of the innermost loop of `build_topology` for one interface
pair, with Python evaluation order: the `ip_address` membership test, then
the `subnet_mask` lookup of interface 1 (uncaught `KeyError` if absent), the
parse of interface 1 (`ValueError` caught, pair skipped), the `subnet_mask`
lookup of interface 2, the parse of interface 2, and finally the network
comparison. -/
def tryMakeLink (d1 n1 : String) (i1 : Interface) (d2 n2 : String)
    (i2 : Interface) : Except PyErr (Option Link) :=
  match i1.ip_address with
  | none => .ok none
  | some a1 =>
    match i2.ip_address with
    | none => .ok none
    | some a2 =>
      match i1.subnet_mask with
      | none => .error (.keyError "subnet_mask")
      | some m1 =>
        match ipv4Network a1 m1 with
        | none => .ok none
        | some net1 =>
          match i2.subnet_mask with
          | none => .error (.keyError "subnet_mask")
          | some m2 =>
            match ipv4Network a2 m2 with
            | none => .ok none
            | some net2 =>
              if net1 = net2 then
                .ok (some { from_device := d1, from_interface := n1,
                            to_device := d2, to_interface := n2 })
              else .ok none

/-- Innermost loop: one interface of device 1 against every interface of
device 2, in order. -/
def scanInner (d1 n1 : String) (i1 : Interface) (d2 : String) :
    List (String × Interface) → Except PyErr (List Link)
  | [] => .ok []
  | (n2, i2) :: rest =>
    match tryMakeLink d1 n1 i1 d2 n2 i2 with
    | .error e => .error e
    | .ok o =>
      match scanInner d1 n1 i1 d2 rest with
      | .error e => .error e
      | .ok ls => .ok (o.toList ++ ls)

/-- Middle loop: every interface of device 1 against device 2. -/
def scanOuter (d1 d2 : String) (ifs2 : List (String × Interface)) :
    List (String × Interface) → Except PyErr (List Link)
  | [] => .ok []
  | (n1, i1) :: rest =>
    match scanInner d1 n1 i1 d2 ifs2 with
    | .error e => .error e
    | .ok ls1 =>
      match scanOuter d1 d2 ifs2 rest with
      | .error e => .error e
      | .ok ls2 => .ok (ls1 ++ ls2)

/-- One unordered device pair, in the order the `i < j` loops visit it. -/
def scanWith (d1 : String) (dev1 : Device) :
    List (String × Device) → Except PyErr (List Link)
  | [] => .ok []
  | (d2, dev2) :: rest =>
    match scanOuter d1 d2 dev2.interfaces dev1.interfaces with
    | .error e => .error e
    | .ok ls1 =>
      match scanWith d1 dev1 rest with
      | .error e => .error e
      | .ok ls2 => .ok (ls1 ++ ls2)

/-- `build_topology(devices_data)`: the device mapping is its insertion-order
association list; the double index loop `i < j` enumerates each unordered
pair of distinct positions once. The result is the `links` list, or the
uncaught exception. -/
def build_topology : List (String × Device) → Except PyErr (List Link)
  | [] => .ok []
  | (d1, dev1) :: rest =>
    match scanWith d1 dev1 rest with
    | .error e => .error e
    | .ok ls1 =>
      match build_topology rest with
      | .error e => .error e
      | .ok ls2 => .ok (ls1 ++ ls2)

/-! ## Pure mirror of `build_topology` on inputs where it does not raise -/

/-- The computed network of one interface record, when the address and mask
are both present and parse. -/
def netOf (i : Interface) : Option (Nat × Nat) :=
  match i.ip_address with
  | none => none
  | some a =>
    match i.subnet_mask with
    | none => none
    | some m => ipv4Network a m

/-- Whether two interface records have equal computed networks. -/
def sameNet (i1 i2 : Interface) : Bool :=
  match netOf i1 with
  | none => false
  | some x =>
    match netOf i2 with
    | none => false
    | some y => x = y

/-- The link the innermost loop emits for one interface pair, when no
exception occurs. -/
def linkOf (d1 n1 : String) (i1 : Interface) (d2 n2 : String)
    (i2 : Interface) : Option Link :=
  if sameNet i1 i2 then
    some { from_device := d1, from_interface := n1,
           to_device := d2, to_interface := n2 }
  else none

def pInner (d1 n1 : String) (i1 : Interface) (d2 : String) :
    List (String × Interface) → List Link
  | [] => []
  | (n2, i2) :: rest => (linkOf d1 n1 i1 d2 n2 i2).toList ++ pInner d1 n1 i1 d2 rest

def pOuter (d1 d2 : String) (ifs2 : List (String × Interface)) :
    List (String × Interface) → List Link
  | [] => []
  | (n1, i1) :: rest => pInner d1 n1 i1 d2 ifs2 ++ pOuter d1 d2 ifs2 rest

def pWith (d1 : String) (dev1 : Device) : List (String × Device) → List Link
  | [] => []
  | (d2, dev2) :: rest => pOuter d1 d2 dev2.interfaces dev1.interfaces ++ pWith d1 dev1 rest

def pBuild : List (String × Device) → List Link
  | [] => []
  | (d1, dev1) :: rest => pWith d1 dev1 rest ++ pBuild rest

/-- Whether a link connects device `d1` interface `n1` with device `d2`
interface `n2`, in either orientation. -/
def linkMatches (d1 n1 d2 n2 : String) (l : Link) : Bool :=
  (l.from_device == d1 && l.from_interface == n1
    && l.to_device == d2 && l.to_interface == n2)
  || (l.from_device == d2 && l.from_interface == n2
    && l.to_device == d1 && l.to_interface == n1)

/-! ## Association-list primitives shared by the dict models -/

/-- Python dict lookup on an insertion-ordered association list. -/
def getAssoc {α : Type} : List (String × α) → String → Option α
  | [], _ => none
  | (k, v) :: rest, d => if k = d then some v else getAssoc rest d

/-- Python dict item assignment: replace in place when the key exists,
append at the end otherwise. -/
def setAssoc {α : Type} : List (String × α) → String → α → List (String × α)
  | [], k, v => [(k, v)]
  | (k1, v1) :: rest, k, v =>
    if k1 = k then (k1, v) :: rest else (k1, v1) :: setAssoc rest k v

/-! ## `NetworkSwitch` -/

/-- One packet, as the dict built by `Router.run`: `self.hostname` can be
Python `None` (see `parse_config_file`), hence the optional source. -/
structure Packet where
  source : Option String
  type : String
deriving DecidableEq, Repr

/-- `self.queues`: a `defaultdict(Queue)` from device id to its FIFO mailbox,
as an insertion-ordered association list. -/
abbrev SwitchState := List (String × List Packet)

/-- The contents of a mailbox; an absent mailbox reads as empty (the
`defaultdict` creates it on first access). -/
def getQueue (s : SwitchState) (d : String) : List Packet :=
  (getAssoc s d).getD []

/-- `NetworkSwitch.send_packet`: `self.queues[destination_id].put(packet)` —
lazily creates the mailbox, then appends at the tail. -/
def send_packet (s : SwitchState) (d : String) (p : Packet) : SwitchState :=
  setAssoc s d (getQueue s d ++ [p])

/-- `NetworkSwitch.receive_packet`: non-blocking `get` returning the head of
the mailbox, or `None` on `Empty` (the `defaultdict` access still creates
the mailbox). -/
def receive_packet (s : SwitchState) (d : String) : Option Packet × SwitchState :=
  match getQueue s d with
  | [] => (none, setAssoc s d [])
  | p :: rest => (some p, setAssoc s d rest)

/-- A sequence of `send_packet` calls to one destination, in arrival order. -/
def sendAll (s : SwitchState) (d : String) : List Packet → SwitchState
  | [] => s
  | p :: ps => sendAll (send_packet s d p) d ps

/-- Repeated `receive_packet` calls for one device, stopping after `n` calls
or on the first `None`, collecting the returned packets in order. -/
def drainAux (d : String) : Nat → SwitchState → List Packet × SwitchState
  | 0, s => ([], s)
  | Nat.succ n, s =>
    match receive_packet s d with
    | (none, s1) => ([], s1)
    | (some p, s1) =>
      let r := drainAux d n s1
      (p :: r.1, r.2)

/-! ## `Router` -/

/-- Python `str(x)` for a value that is a string or `None`. -/
def pyStr : Option String → String
  | none => "None"
  | some s => s

/-- One entry of `Router.log`: the Python code appends the string
`"[" ++ strftime ++ "] [" ++ str(hostname) ++ "] " ++ message`; the wall-clock
timestamp is modelled as the integer clock reading supplied to the loop. -/
structure LogEntry where
  time : Int
  hostname : Option String
  message : String
deriving DecidableEq, Repr

/-- The per-instance state set up by `Router.__init__`. -/
structure RouterData where
  device_id : String
  hostname : Option String
  neighbors : List String
deriving DecidableEq, Repr

/-- The mutable loop state of `Router.run`. -/
structure RouterState where
  log : List LogEntry
  last_hello_time : Int
deriving DecidableEq, Repr

/-- The neighbor derivation in `Router.__init__`: one entry appended per link
naming this device, with the opposite endpoint; `elif`, so a link is
consulted once. -/
def computeNeighbors (device_id : String) : List Link → List String
  | [] => []
  | l :: rest =>
    if l.from_device = device_id then l.to_device :: computeNeighbors device_id rest
    else if l.to_device = device_id then l.from_device :: computeNeighbors device_id rest
    else computeNeighbors device_id rest

/-- `Router.__init__`: `self.hostname = config_data.get("hostname", device_id)`.
`parse_config_file` always stores the `hostname` key (initialized to Python
`None`), so the lookup returns the stored value and the `device_id` default
argument never applies. -/
def mkRouter (device_id : String) (config : Device) (links : List Link) : RouterData :=
  { device_id := device_id
    hostname := config.hostname
    neighbors := computeNeighbors device_id links }

/-- The hello packet dict literal in `Router.run`. -/
def helloPacket (hostname : Option String) : Packet :=
  { source := hostname, type := "OSPF_HELLO" }

def sentEntry (now : Int) (hostname : Option String) (nb : String) : LogEntry :=
  { time := now, hostname := hostname, message := "Sent \x27OSPF_HELLO\x27 to " ++ nb }

def receivedEntry (now : Int) (hostname : Option String) (p : Packet) : LogEntry :=
  { time := now, hostname := hostname
    message := "Received \x27" ++ p.type ++ "\x27 from " ++ pyStr p.source }

/-- The `for neighbor in self.neighbors` send loop: send one hello packet and
append one log entry per list entry, in list order. The third component is
the trace of `send_packet` calls performed (destination and packet). -/
def helloLoop (hostname : Option String) (now : Int) :
    List String → RouterState → SwitchState →
      RouterState × SwitchState × List (String × Packet)
  | [], st, sw => (st, sw, [])
  | nb :: rest, st, sw =>
    let sw1 := send_packet sw nb (helloPacket hostname)
    let st1 : RouterState := { st with log := st.log ++ [sentEntry now hostname nb] }
    let r := helloLoop hostname now rest st1 sw1
    (r.1, r.2.1, (nb, helloPacket hostname) :: r.2.2)

/-- One hello broadcast: the send loop followed by
`last_hello_time = time.time()` (the two clock reads of one iteration are
modelled as the same reading `now`). -/
def helloBroadcast (r : RouterData) (now : Int) (st : RouterState) (sw : SwitchState) :
    RouterState × SwitchState × List (String × Packet) :=
  let h := helloLoop r.hostname now r.neighbors st sw
  ({ h.1 with last_hello_time := now }, h.2.1, h.2.2)

/-- The receive half of one loop iteration of `Router.run`: a non-blocking
receive from the router's own mailbox, logging the packet when one arrived. -/
def recvPhase (r : RouterData) (now : Int) (st : RouterState) (sw : SwitchState) :
    RouterState × SwitchState :=
  let rcv := receive_packet sw r.device_id
  match rcv.1 with
  | some p => ({ st with log := st.log ++ [receivedEntry now r.hostname p] }, rcv.2)
  | none => (st, rcv.2)

/-- One iteration of the `while self.is_running` loop of `Router.run`:
non-blocking receive (logging any packet), then the hello broadcast when
more than the 2-second hello interval has elapsed. -/
def routerStep (r : RouterData) (now : Int) (st : RouterState) (sw : SwitchState) :
    RouterState × SwitchState × List (String × Packet) :=
  let a := recvPhase r now st sw
  if 2 < now - a.1.last_hello_time then helloBroadcast r now a.1 a.2
  else (a.1, a.2, [])

/-- Python `repr` of a list of strings, as interpolated by the
`f"Thread started. Neighbors: {self.neighbors}"` log line. -/
def pyReprItems : List String → String
  | [] => ""
  | [x] => "\x27" ++ x ++ "\x27"
  | x :: xs => "\x27" ++ x ++ "\x27, " ++ pyReprItems xs

def pyListRepr (l : List String) : String := "[" ++ pyReprItems l ++ "]"

def startEntry (t0 : Int) (r : RouterData) : LogEntry :=
  { time := t0, hostname := r.hostname
    message := "Thread started. Neighbors: " ++ pyListRepr r.neighbors }

def finishEntry (t1 : Int) (r : RouterData) : LogEntry :=
  { time := t1, hostname := r.hostname, message := "Thread finished." }

/-- The loop of `Router.run`, iterated once per clock reading in `times`
(the run length is however many iterations happen before `is_running` is
observed false). -/
def runLoop (r : RouterData) : List Int → RouterState → SwitchState →
    RouterState × SwitchState × List (String × Packet)
  | [], st, sw => (st, sw, [])
  | now :: rest, st, sw =>
    let s1 := routerStep r now st sw
    let s2 := runLoop r rest s1.1 s1.2.1
    (s2.1, s2.2.1, s1.2.2 ++ s2.2.2)

/-- `Router.run` in full: the start log entry, `last_hello_time = 0`, the
loop, and the finish log entry, together with the trace of all sends. -/
def routerRun (r : RouterData) (t0 : Int) (times : List Int) (t1 : Int)
    (sw : SwitchState) : RouterState × SwitchState × List (String × Packet) :=
  let st0 : RouterState := { log := [startEntry t0 r], last_hello_time := 0 }
  let s := runLoop r times st0 sw
  ({ s.1 with log := s.1.log ++ [finishEntry t1 r] }, s.2.1, s.2.2)

/-! ## `parse_config_file` -/

/-- Python truthiness of the `current_interface` variable (a string or
`None`). -/
def truthyStr : Option String → Bool
  | none => false
  | some s => !s.isEmpty

/-- Processing of one line of the config dump, with the `if`/`elif` chain and
the exceptions of the Python code (`IndexError` from `split()[i]`,
`KeyError` from a dict lookup of an undeclared interface). -/
def parseLine (acc : Device × Option String) (rawLine : String) :
    Except PyErr (Device × Option String) :=
  let line := String.mk (pyStrip rawLine.data)
  let toks := pySplitWs line.data
  let dev := acc.1
  let cur := acc.2
  if ("hostname".data).isPrefixOf line.data then
    match toks[1]? with
    | none => .error .indexError
    | some h => .ok ({ dev with hostname := some h }, cur)
  else if ("interface".data).isPrefixOf line.data then
    match toks[1]? with
    | none => .error .indexError
    | some nm => .ok ({ dev with interfaces := setAssoc dev.interfaces nm {} }, some nm)
  else if ("router ospf".data).isPrefixOf line.data then
    .ok ({ dev with ospf_enabled := true }, cur)
  else if ("description".data).isPrefixOf line.data && truthyStr cur then
    match cur with
    | none => .ok (dev, cur)
    | some nm =>
      match getAssoc dev.interfaces nm with
      | none => .error (.keyError nm)
      | some irec =>
        let irec1 : Interface := { irec with description := some (joinSpace (toks.drop 1)) }
        .ok ({ dev with interfaces := setAssoc dev.interfaces nm irec1 }, cur)
  else if ("ip address".data).isPrefixOf line.data && truthyStr cur then
    match cur with
    | none => .ok (dev, cur)
    | some nm =>
      match toks[2]? with
      | none => .error .indexError
      | some a =>
        match getAssoc dev.interfaces nm with
        | none => .error (.keyError nm)
        | some irec =>
          match toks[3]? with
          | none => .error .indexError
          | some m =>
            let irec1 : Interface := { irec with ip_address := some a, subnet_mask := some m }
            .ok ({ dev with interfaces := setAssoc dev.interfaces nm irec1 }, cur)
  else .ok (dev, cur)

/-- `parse_config_file`: the device id is the containing folder name
(supplied directly); the body folds the line handler over the file lines,
starting from the dict literal with `hostname` initialized to `None`. -/
def parse_config_file (device_id : String) (rawLines : List String) :
    Except PyErr (String × Device) :=
  match rawLines.foldlM parseLine
      ({ hostname := none, interfaces := [], default_route := none,
         ospf_enabled := false }, none) with
  | .error e => .error e
  | .ok acc => .ok (device_id, acc.1)

/-! ## The simulation-start branch of `main` -/

/-- One `Router` thread object with its `is_alive()` observation. -/
structure RouterThread where
  router : RouterData
  alive : Bool
deriving DecidableEq, Repr

/-- The state `main` keeps between menu iterations. -/
structure ControllerState where
  router_threads : List RouterThread
deriving DecidableEq, Repr

inductive SimResult where
  | busy
  | started
deriving DecidableEq, Repr

/-- Python `needle in s` substring test. -/
def containsSub (needle s : String) : Bool :=
  s.data.tails.any (fun t => needle.data.isPrefixOf t)

/-- The menu choice `"2"` branch of `main`: if any previous router thread is
still alive, report busy and change nothing (`continue`); otherwise
construct one `Router` per device whose id contains `"R"` and make that the
new thread list. The subsequent 10-second concurrent run, stop signalling
and joins are timing behaviour, not state selection, and the busy guard is
what the claims are about. -/
def startSimulation (st : ControllerState) (devices : List (String × Device))
    (topology : List Link) : SimResult × ControllerState :=
  if st.router_threads.any (fun t => t.alive) then (.busy, st)
  else
    (.started,
      { router_threads :=
          (devices.filter (fun p => containsSub "R" p.1)).map
            (fun p => { router := mkRouter p.1 p.2 topology, alive := true }) })

/-! ## Concrete sample inputs -/

def sampleIf1 : Interface :=
  { ip_address := some "10.0.0.1", subnet_mask := some "255.255.255.252" }

def sampleIf2 : Interface :=
  { ip_address := some "10.0.0.2", subnet_mask := some "255.255.255.252" }

def sampleR1 : Device := { hostname := some "Router1", interfaces := [("Gi0/1", sampleIf1)] }

def sampleR2 : Device := { hostname := some "Router2", interfaces := [("Gi0/1", sampleIf2)] }

def sampleDevices : List (String × Device) := [("R1", sampleR1), ("R2", sampleR2)]

def sampleLink : Link :=
  { from_device := "R1", from_interface := "Gi0/1"
    to_device := "R2", to_interface := "Gi0/1" }

/-- A device whose interface has an address but no mask: reachable through
the public `build(devices)` contract, though not through `parse_config_file`
(which always stores address and mask together). -/
def maskMissingA : Device := { interfaces := [("eth0", { ip_address := some "10.0.0.1" })] }

def busyState : ControllerState :=
  { router_threads :=
      [{ router := { device_id := "R1", hostname := some "Router1", neighbors := [] },
         alive := true }] }

/-- The device produced by parsing a config dump that declares one interface
and no hostname. -/
def noHostnameDevice : Device :=
  { hostname := none, interfaces := [("Gi0/1", {})], default_route := none,
    ospf_enabled := false }

/-! # Theorems -/

/-! ## Association-list lemmas -/

theorem getAssoc_setAssoc_self {α : Type} (l : List (String × α)) (k : String) (v : α) :
    getAssoc (setAssoc l k v) k = some v := by
  induction l with
  | nil => simp [setAssoc, getAssoc]
  | cons hd t ih =>
    obtain ⟨k1, v1⟩ := hd
    by_cases hk : k1 = k <;> simp [setAssoc, getAssoc, hk, ih]

theorem getAssoc_setAssoc_ne {α : Type} (l : List (String × α)) (k k' : String) (v : α)
    (h : k' ≠ k) : getAssoc (setAssoc l k v) k' = getAssoc l k' := by
  induction l with
  | nil =>
    have hk : ¬(k = k') := fun hh => h hh.symm
    simp [setAssoc, getAssoc, hk]
  | cons hd t ih =>
    obtain ⟨k1, v1⟩ := hd
    by_cases hk : k1 = k
    · subst hk
      have hk1 : ¬(k1 = k') := fun hh => h hh.symm
      simp [setAssoc, getAssoc, hk1]
    · simp [setAssoc, getAssoc, hk, ih]

theorem getQueue_send_self (s : SwitchState) (d : String) (p : Packet) :
    getQueue (send_packet s d p) d = getQueue s d ++ [p] := by
  simp [send_packet, getQueue, getAssoc_setAssoc_self]

theorem getQueue_send_ne (s : SwitchState) (d d' : String) (p : Packet) (h : d' ≠ d) :
    getQueue (send_packet s d p) d' = getQueue s d' := by
  simp [send_packet, getQueue, getAssoc_setAssoc_ne _ _ _ _ h]

theorem getQueue_sendAll_self (d : String) (ps : List Packet) :
    ∀ s : SwitchState, getQueue (sendAll s d ps) d = getQueue s d ++ ps := by
  induction ps with
  | nil => intro s; simp [sendAll]
  | cons p ps ih =>
    intro s
    simp [sendAll, ih (send_packet s d p), getQueue_send_self]

theorem drainAux_exact (d : String) (q : List Packet) :
    ∀ s : SwitchState, getQueue s d = q → (drainAux d q.length s).1 = q := by
  induction q with
  | nil => intro s _; simp [drainAux]
  | cons p rest ih =>
    intro s hq
    have hstep : receive_packet s d = (some p, setAssoc s d rest) := by
      simp [receive_packet, hq]
    have hq2 : getQueue (setAssoc s d rest) d = rest := by
      simp [getQueue, getAssoc_setAssoc_self]
    simp [List.length_cons, drainAux, hstep, ih _ hq2]

/-- Helper: a common prefix cancels in a string equality test. -/
theorem string_append_beq (s a b : String) : (s ++ a == s ++ b) = (a == b) := by
  by_cases h : a = b
  · simp [h]
  · have hne : s ++ a ≠ s ++ b := by
      intro hh
      apply h
      have hd := congrArg String.data hh
      simp only [String.data_append] at hd
      exact String.ext (List.append_cancel_left hd)
    simp [h, hne]

/-! ## `build_topology` success characterization -/

theorem sameNet_none_left {i1 i2 : Interface} (h : netOf i1 = none) :
    sameNet i1 i2 = false := by
  simp [sameNet, h]

theorem sameNet_none_right {i1 i2 : Interface} (h : netOf i2 = none) :
    sameNet i1 i2 = false := by
  cases hn : netOf i1 <;> simp [sameNet, hn, h]

theorem tryMakeLink_ok {d1 n1 : String} {i1 : Interface} {d2 n2 : String}
    {i2 : Interface} {o : Option Link}
    (h : tryMakeLink d1 n1 i1 d2 n2 i2 = .ok o) :
    o = linkOf d1 n1 i1 d2 n2 i2 := by
  cases h1 : i1.ip_address with
  | none =>
    simp [tryMakeLink, h1] at h
    have hn1 : netOf i1 = none := by simp [netOf, h1]
    simp [linkOf, sameNet_none_left hn1, ← h]
  | some a1 =>
    cases h2 : i2.ip_address with
    | none =>
      simp [tryMakeLink, h1, h2] at h
      have hn2 : netOf i2 = none := by simp [netOf, h2]
      simp [linkOf, sameNet_none_right hn2, ← h]
    | some a2 =>
      cases h3 : i1.subnet_mask with
      | none => simp [tryMakeLink, h1, h2, h3] at h
      | some m1 =>
        cases h4 : ipv4Network a1 m1 with
        | none =>
          simp [tryMakeLink, h1, h2, h3, h4] at h
          simp [linkOf, sameNet, netOf, h1, h2, h3, h4, ← h]
        | some net1 =>
          cases h5 : i2.subnet_mask with
          | none => simp [tryMakeLink, h1, h2, h3, h4, h5] at h
          | some m2 =>
            cases h6 : ipv4Network a2 m2 with
            | none =>
              simp [tryMakeLink, h1, h2, h3, h4, h5, h6] at h
              simp [linkOf, sameNet, netOf, h1, h2, h3, h4, h5, h6, ← h]
            | some net2 =>
              by_cases h7 : net1 = net2
              · simp [tryMakeLink, h1, h2, h3, h4, h5, h6, h7] at h
                simp [linkOf, sameNet, netOf, h1, h2, h3, h4, h5, h6, h7, ← h]
              · simp [tryMakeLink, h1, h2, h3, h4, h5, h6, h7] at h
                simp [linkOf, sameNet, netOf, h1, h2, h3, h4, h5, h6, h7, ← h]

theorem scanInner_ok {d1 n1 : String} {i1 : Interface} {d2 : String} :
    ∀ {l2 : List (String × Interface)} {ls : List Link},
      scanInner d1 n1 i1 d2 l2 = .ok ls → ls = pInner d1 n1 i1 d2 l2 := by
  intro l2
  induction l2 with
  | nil =>
    intro ls h
    simp only [scanInner, Except.ok.injEq] at h
    simp [pInner, ← h]
  | cons hd rest ih =>
    obtain ⟨n2, i2⟩ := hd
    intro ls h
    simp only [scanInner] at h
    cases htm : tryMakeLink d1 n1 i1 d2 n2 i2 with
    | error e => rw [htm] at h; cases h
    | ok o =>
      rw [htm] at h
      cases hsr : scanInner d1 n1 i1 d2 rest with
      | error e => rw [hsr] at h; cases h
      | ok ls2 =>
        rw [hsr] at h
        simp only [Except.ok.injEq] at h
        rw [← h, tryMakeLink_ok htm, ih hsr]
        simp [pInner]

theorem scanOuter_ok {d1 d2 : String} {ifs2 : List (String × Interface)} :
    ∀ {l1 : List (String × Interface)} {ls : List Link},
      scanOuter d1 d2 ifs2 l1 = .ok ls → ls = pOuter d1 d2 ifs2 l1 := by
  intro l1
  induction l1 with
  | nil =>
    intro ls h
    simp only [scanOuter, Except.ok.injEq] at h
    simp [pOuter, ← h]
  | cons hd rest ih =>
    obtain ⟨n1, i1⟩ := hd
    intro ls h
    simp only [scanOuter] at h
    cases hsi : scanInner d1 n1 i1 d2 ifs2 with
    | error e => rw [hsi] at h; cases h
    | ok ls1 =>
      rw [hsi] at h
      cases hso : scanOuter d1 d2 ifs2 rest with
      | error e => rw [hso] at h; cases h
      | ok ls2 =>
        rw [hso] at h
        simp only [Except.ok.injEq] at h
        rw [← h, scanInner_ok hsi, ih hso]
        simp [pOuter]

theorem scanWith_ok {d1 : String} {dev1 : Device} :
    ∀ {rest : List (String × Device)} {ls : List Link},
      scanWith d1 dev1 rest = .ok ls → ls = pWith d1 dev1 rest := by
  intro rest
  induction rest with
  | nil =>
    intro ls h
    simp only [scanWith, Except.ok.injEq] at h
    simp [pWith, ← h]
  | cons hd rest2 ih =>
    obtain ⟨d2, dev2⟩ := hd
    intro ls h
    simp only [scanWith] at h
    cases hso : scanOuter d1 d2 dev2.interfaces dev1.interfaces with
    | error e => rw [hso] at h; cases h
    | ok ls1 =>
      rw [hso] at h
      cases hsw : scanWith d1 dev1 rest2 with
      | error e => rw [hsw] at h; cases h
      | ok ls2 =>
        rw [hsw] at h
        simp only [Except.ok.injEq] at h
        rw [← h, scanOuter_ok hso, ih hsw]
        simp [pWith]

theorem build_topology_ok :
    ∀ {devs : List (String × Device)} {ls : List Link},
      build_topology devs = .ok ls → ls = pBuild devs := by
  intro devs
  induction devs with
  | nil =>
    intro ls h
    simp only [build_topology, Except.ok.injEq] at h
    simp [pBuild, ← h]
  | cons hd rest ih =>
    obtain ⟨d1, dev1⟩ := hd
    intro ls h
    simp only [build_topology] at h
    cases hsw : scanWith d1 dev1 rest with
    | error e => rw [hsw] at h; cases h
    | ok ls1 =>
      rw [hsw] at h
      cases hb : build_topology rest with
      | error e => rw [hb] at h; cases h
      | ok ls2 =>
        rw [hb] at h
        simp only [Except.ok.injEq] at h
        rw [← h, scanWith_ok hsw, ih hb]
        simp [pBuild]

/-! ## Shape and counting lemmas for the pure mirror -/

theorem linkOf_mem {d1 n1 : String} {i1 : Interface} {d2 n2 : String}
    {i2 : Interface} {l : Link} (h : l ∈ (linkOf d1 n1 i1 d2 n2 i2).toList) :
    l = { from_device := d1, from_interface := n1,
          to_device := d2, to_interface := n2 }
      ∧ sameNet i1 i2 = true := by
  unfold linkOf at h
  by_cases hs : sameNet i1 i2
  · simp [hs] at h
    simp [h, hs]
  · simp [hs] at h

theorem pInner_mem {d1 n1 : String} {i1 : Interface} {d2 : String} :
    ∀ {l2 : List (String × Interface)} {l : Link}, l ∈ pInner d1 n1 i1 d2 l2 →
      l.from_device = d1 ∧ l.from_interface = n1 ∧ l.to_device = d2
        ∧ l.to_interface ∈ l2.map Prod.fst := by
  intro l2
  induction l2 with
  | nil => intro l h; simp [pInner] at h
  | cons hd rest ih =>
    obtain ⟨n2, i2⟩ := hd
    intro l h
    simp only [pInner, List.mem_append] at h
    rcases h with h | h
    · obtain ⟨hl, _⟩ := linkOf_mem h
      subst hl
      simp
    · obtain ⟨ha, hb, hc, hd2⟩ := ih h
      exact ⟨ha, hb, hc, by simp [hd2]⟩

theorem pOuter_mem {d1 d2 : String} {ifs2 : List (String × Interface)} :
    ∀ {l1 : List (String × Interface)} {l : Link}, l ∈ pOuter d1 d2 ifs2 l1 →
      l.from_device = d1 ∧ l.to_device = d2 := by
  intro l1
  induction l1 with
  | nil => intro l h; simp [pOuter] at h
  | cons hd rest ih =>
    obtain ⟨n1, i1⟩ := hd
    intro l h
    simp only [pOuter, List.mem_append] at h
    rcases h with h | h
    · obtain ⟨ha, _, hc, _⟩ := pInner_mem h
      exact ⟨ha, hc⟩
    · exact ih h

theorem pWith_mem {d1 : String} {dev1 : Device} :
    ∀ {rest : List (String × Device)} {l : Link}, l ∈ pWith d1 dev1 rest →
      l.from_device = d1 ∧ l.to_device ∈ rest.map Prod.fst := by
  intro rest
  induction rest with
  | nil => intro l h; simp [pWith] at h
  | cons hd rest2 ih =>
    obtain ⟨d2, dev2⟩ := hd
    intro l h
    simp only [pWith, List.mem_append] at h
    rcases h with h | h
    · obtain ⟨ha, hb⟩ := pOuter_mem h
      exact ⟨ha, by simp [hb]⟩
    · obtain ⟨ha, hb⟩ := ih h
      exact ⟨ha, by simp [hb]⟩

theorem pBuild_mem :
    ∀ {devs : List (String × Device)} {l : Link}, l ∈ pBuild devs →
      l.from_device ∈ devs.map Prod.fst ∧ l.to_device ∈ devs.map Prod.fst := by
  intro devs
  induction devs with
  | nil => intro l h; simp [pBuild] at h
  | cons hd rest ih =>
    obtain ⟨da, deva⟩ := hd
    intro l h
    simp only [pBuild, List.mem_append] at h
    rcases h with h | h
    · obtain ⟨ha, hb⟩ := pWith_mem h
      exact ⟨by simp [List.map_cons, ha],
        by simp [List.map_cons, List.mem_cons, hb]⟩
    · obtain ⟨ha, hb⟩ := ih h
      exact ⟨by simp [List.map_cons, List.mem_cons, ha],
        by simp [List.map_cons, List.mem_cons, hb]⟩

theorem pBuild_no_self :
    ∀ {devs : List (String × Device)}, (devs.map Prod.fst).Nodup →
      ∀ l ∈ pBuild devs, l.from_device ≠ l.to_device := by
  intro devs
  induction devs with
  | nil => intro _ l h; simp [pBuild] at h
  | cons hd rest ih =>
    obtain ⟨da, deva⟩ := hd
    intro hnd l h
    simp only [List.map_cons, List.nodup_cons] at hnd
    obtain ⟨hna, hnr⟩ := hnd
    simp only [pBuild, List.mem_append] at h
    rcases h with h | h
    · obtain ⟨hf, ht⟩ := pWith_mem h
      rw [hf]
      intro hh
      exact hna (hh ▸ ht)
    · exact ih hnr l h

theorem sameNet_comm (i1 i2 : Interface) : sameNet i1 i2 = sameNet i2 i1 := by
  cases h1 : netOf i1 <;> cases h2 : netOf i2 <;>
    simp [sameNet, h1, h2, eq_comm]

theorem sameNet_iff (i1 i2 : Interface) :
    sameNet i1 i2 = true ↔ ((netOf i1).isSome = true ∧ netOf i1 = netOf i2) := by
  cases h1 : netOf i1 <;> cases h2 : netOf i2 <;>
    simp [sameNet, h1, h2, eq_comm]

theorem linkMatches_swap (d1 n1 d2 n2 : String) (l : Link) :
    linkMatches d2 n2 d1 n1 l = linkMatches d1 n1 d2 n2 l :=
  Bool.or_comm _ _

theorem pInner_countP_toIf_zero {d1 n1 : String} {i1 : Interface} {d2 n2 : String} :
    ∀ {l2 : List (String × Interface)}, n2 ∉ l2.map Prod.fst →
      (pInner d1 n1 i1 d2 l2).countP (fun l => l.to_interface == n2) = 0 := by
  intro l2
  induction l2 with
  | nil => intro _; rfl
  | cons hd rest ih =>
    obtain ⟨n2', i2'⟩ := hd
    intro hn
    simp only [List.map_cons, List.mem_cons, not_or] at hn
    obtain ⟨hne, hnr⟩ := hn
    have hne' : ¬(n2' = n2) := fun hh => hne hh.symm
    simp only [pInner, List.countP_append, ih hnr, Nat.add_zero]
    unfold linkOf
    by_cases hs : sameNet i1 i2' <;> simp [hs, hne']

theorem pInner_countP_toIf {d1 n1 : String} {i1 : Interface} {d2 n2 : String}
    {i2 : Interface} :
    ∀ {l2 : List (String × Interface)}, (l2.map Prod.fst).Nodup → (n2, i2) ∈ l2 →
      (pInner d1 n1 i1 d2 l2).countP (fun l => l.to_interface == n2)
        = if sameNet i1 i2 then 1 else 0 := by
  intro l2
  induction l2 with
  | nil => intro _ hm; simp at hm
  | cons hd rest ih =>
    obtain ⟨n2', i2'⟩ := hd
    intro hnd hm
    simp only [List.map_cons, List.nodup_cons] at hnd
    obtain ⟨hn2r, hndr⟩ := hnd
    rcases List.mem_cons.mp hm with heq | hmr
    · injection heq with e1 e2
      subst e1
      subst e2
      simp only [pInner, List.countP_append, pInner_countP_toIf_zero hn2r,
        Nat.add_zero]
      unfold linkOf
      by_cases hs : sameNet i1 i2 <;> simp [hs]
    · have hne : ¬(n2' = n2) :=
        fun hh => hn2r (hh ▸ List.mem_map_of_mem Prod.fst hmr)
      simp only [pInner, List.countP_append, ih hndr hmr]
      have hz : ((linkOf d1 n1 i1 d2 n2' i2').toList).countP
          (fun l => l.to_interface == n2) = 0 := by
        unfold linkOf
        by_cases hs : sameNet i1 i2' <;> simp [hs, hne]
      rw [hz]
      omega

theorem pInner_countP_match {d1 n1 d2 n2 n1' : String} {i1' : Interface}
    {l2 : List (String × Interface)} (hdd : d1 ≠ d2) :
    (pInner d1 n1' i1' d2 l2).countP (linkMatches d1 n1 d2 n2)
      = if n1' = n1
          then (pInner d1 n1' i1' d2 l2).countP (fun l => l.to_interface == n2)
          else 0 := by
  by_cases hn : n1' = n1
  · subst hn
    rw [if_pos rfl]
    apply List.countP_congr
    intro l hl
    obtain ⟨hf, hfi, ht, _⟩ := pInner_mem hl
    simp [linkMatches, hf, hfi, ht, hdd]
  · rw [if_neg hn]
    rw [List.countP_eq_zero]
    intro l hl
    obtain ⟨hf, hfi, ht, _⟩ := pInner_mem hl
    simp [linkMatches, hf, hfi, ht, hdd, hn]

theorem pOuter_countP_zero {d1 d2 n1 n2 : String}
    {ifs2 : List (String × Interface)} (hdd : d1 ≠ d2) :
    ∀ {l1 : List (String × Interface)}, n1 ∉ l1.map Prod.fst →
      (pOuter d1 d2 ifs2 l1).countP (linkMatches d1 n1 d2 n2) = 0 := by
  intro l1
  induction l1 with
  | nil => intro _; rfl
  | cons hd rest ih =>
    obtain ⟨n1', i1'⟩ := hd
    intro hn
    simp only [List.map_cons, List.mem_cons, not_or] at hn
    obtain ⟨hne, hnr⟩ := hn
    have hne' : ¬(n1' = n1) := fun hh => hne hh.symm
    simp only [pOuter, List.countP_append, ih hnr, Nat.add_zero]
    rw [pInner_countP_match hdd, if_neg hne']

theorem pOuter_countP {d1 d2 n1 n2 : String} {i1 i2 : Interface}
    {ifs2 : List (String × Interface)} (hdd : d1 ≠ d2)
    (hnd2 : (ifs2.map Prod.fst).Nodup) (hm2 : (n2, i2) ∈ ifs2) :
    ∀ {l1 : List (String × Interface)}, (l1.map Prod.fst).Nodup → (n1, i1) ∈ l1 →
      (pOuter d1 d2 ifs2 l1).countP (linkMatches d1 n1 d2 n2)
        = if sameNet i1 i2 then 1 else 0 := by
  intro l1
  induction l1 with
  | nil => intro _ hm; simp at hm
  | cons hd rest ih =>
    obtain ⟨n1', i1'⟩ := hd
    intro hnd hm
    simp only [List.map_cons, List.nodup_cons] at hnd
    obtain ⟨hn1r, hndr⟩ := hnd
    rcases List.mem_cons.mp hm with heq | hmr
    · injection heq with e1 e2
      subst e1
      subst e2
      simp only [pOuter, List.countP_append, pOuter_countP_zero hdd hn1r,
        Nat.add_zero]
      rw [pInner_countP_match hdd, if_pos rfl,
        pInner_countP_toIf hnd2 hm2]
    · have hne : ¬(n1' = n1) :=
        fun hh => hn1r (hh ▸ List.mem_map_of_mem Prod.fst hmr)
      simp only [pOuter, List.countP_append, ih hndr hmr]
      rw [pInner_countP_match hdd, if_neg hne]
      omega

theorem pWith_countP_zero_from {d1 n1 d2 n2 da : String} {deva : Device}
    {rest : List (String × Device)} (h1 : da ≠ d1) (h2 : da ≠ d2) :
    (pWith da deva rest).countP (linkMatches d1 n1 d2 n2) = 0 := by
  rw [List.countP_eq_zero]
  intro l hl
  obtain ⟨hf, _⟩ := pWith_mem hl
  simp [linkMatches, hf, h1, h2]

theorem pWith_countP_zero_to {d1 n1 d2 n2 : String} {dev1 : Device}
    (hdd : d1 ≠ d2) :
    ∀ {rest : List (String × Device)}, d2 ∉ rest.map Prod.fst →
      (pWith d1 dev1 rest).countP (linkMatches d1 n1 d2 n2) = 0 := by
  intro rest hn
  rw [List.countP_eq_zero]
  intro l hl
  obtain ⟨hf, ht⟩ := pWith_mem hl
  have htne : l.to_device ≠ d2 := fun hh => hn (hh ▸ ht)
  simp [linkMatches, hf, hdd, htne]

theorem pWith_countP {d1 d2 n1 n2 : String} {dev1 dev2 : Device} {i1 i2 : Interface}
    (hdd : d1 ≠ d2)
    (hnd1 : (dev1.interfaces.map Prod.fst).Nodup)
    (hnd2 : (dev2.interfaces.map Prod.fst).Nodup)
    (hm1 : (n1, i1) ∈ dev1.interfaces) (hm2 : (n2, i2) ∈ dev2.interfaces) :
    ∀ {rest : List (String × Device)}, (rest.map Prod.fst).Nodup →
      (d2, dev2) ∈ rest →
      (pWith d1 dev1 rest).countP (linkMatches d1 n1 d2 n2)
        = if sameNet i1 i2 then 1 else 0 := by
  intro rest
  induction rest with
  | nil => intro _ hm; simp at hm
  | cons hd rest2 ih =>
    obtain ⟨d2', dev2'⟩ := hd
    intro hnd hm
    simp only [List.map_cons, List.nodup_cons] at hnd
    obtain ⟨hn2r, hndr⟩ := hnd
    rcases List.mem_cons.mp hm with heq | hmr
    · injection heq with e1 e2
      subst e1
      subst e2
      simp only [pWith, List.countP_append, pWith_countP_zero_to hdd hn2r,
        Nat.add_zero]
      exact pOuter_countP hdd hnd2 hm2 hnd1 hm1
    · have hne : d2' ≠ d2 :=
        fun hh => hn2r (hh ▸ List.mem_map_of_mem Prod.fst hmr)
      have hz : (pOuter d1 d2' dev2'.interfaces dev1.interfaces).countP
          (linkMatches d1 n1 d2 n2) = 0 := by
        rw [List.countP_eq_zero]
        intro l hl
        obtain ⟨hf, ht⟩ := pOuter_mem hl
        have htne : l.to_device ≠ d2 := ht ▸ hne
        simp [linkMatches, hf, ht, hdd, hne, htne]
      simp only [pWith, List.countP_append, hz, ih hndr hmr]
      omega

theorem pBuild_countP_zero {d1 n1 d2 n2 : String}
    {devs : List (String × Device)}
    (h : d1 ∉ devs.map Prod.fst ∨ d2 ∉ devs.map Prod.fst) :
    (pBuild devs).countP (linkMatches d1 n1 d2 n2) = 0 := by
  rw [List.countP_eq_zero]
  intro l hl
  obtain ⟨hf, ht⟩ := pBuild_mem hl
  rcases h with h | h
  · have hf1 : l.from_device ≠ d1 := fun hh => h (hh ▸ hf)
    have ht1 : l.to_device ≠ d1 := fun hh => h (hh ▸ ht)
    simp [linkMatches, hf1, ht1]
  · have hf2 : l.from_device ≠ d2 := fun hh => h (hh ▸ hf)
    have ht2 : l.to_device ≠ d2 := fun hh => h (hh ▸ ht)
    simp [linkMatches, hf2, ht2]

theorem pBuild_countP {d1 d2 n1 n2 : String} {dev1 dev2 : Device} {i1 i2 : Interface}
    (hdd : d1 ≠ d2)
    (hnd1 : (dev1.interfaces.map Prod.fst).Nodup)
    (hnd2 : (dev2.interfaces.map Prod.fst).Nodup)
    (hm1i : (n1, i1) ∈ dev1.interfaces) (hm2i : (n2, i2) ∈ dev2.interfaces) :
    ∀ {devs : List (String × Device)}, (devs.map Prod.fst).Nodup →
      (d1, dev1) ∈ devs → (d2, dev2) ∈ devs →
      (pBuild devs).countP (linkMatches d1 n1 d2 n2)
        = if sameNet i1 i2 then 1 else 0 := by
  intro devs
  induction devs with
  | nil => intro _ hm; simp at hm
  | cons hd rest ih =>
    obtain ⟨da, deva⟩ := hd
    intro hnd hm1 hm2
    simp only [List.map_cons, List.nodup_cons] at hnd
    obtain ⟨hnar, hndr⟩ := hnd
    simp only [pBuild, List.countP_append]
    rcases List.mem_cons.mp hm1 with he1 | hr1
    · injection he1 with e1 e2
      subst e1
      subst e2
      have hr2 : (d2, dev2) ∈ rest := by
        rcases List.mem_cons.mp hm2 with he2 | h
        · injection he2 with e3 _
          exact absurd e3.symm hdd
        · exact h
      rw [pWith_countP hdd hnd1 hnd2 hm1i hm2i hndr hr2,
        pBuild_countP_zero (Or.inl hnar)]
      omega
    · rcases List.mem_cons.mp hm2 with he2 | hr2
      · injection he2 with e1 e2
        subst e1
        subst e2
        have hswap : (pWith d2 dev2 rest).countP (linkMatches d1 n1 d2 n2)
            = (pWith d2 dev2 rest).countP (linkMatches d2 n2 d1 n1) :=
          List.countP_congr (fun l _ => by rw [linkMatches_swap])
        rw [hswap,
          pWith_countP (fun hh => hdd hh.symm) hnd2 hnd1 hm2i hm1i hndr hr1,
          pBuild_countP_zero (Or.inr hnar), sameNet_comm i2 i1]
        omega
      · have hda1 : da ≠ d1 :=
          fun hh => hnar (hh ▸ List.mem_map_of_mem Prod.fst hr1)
        have hda2 : da ≠ d2 :=
          fun hh => hnar (hh ▸ List.mem_map_of_mem Prod.fst hr2)
        rw [pWith_countP_zero_from hda1 hda2, ih hndr hr1 hr2]
        omega

/-! ## Claim theorems: switch, controller, parsing -/

/-- C7: for every destination id and packet, `send_packet` enqueues the
packet at the tail of that destination's mailbox and touches no other
mailbox; it is a total function (never blocks, never fails), and it works
for a destination with no mailbox yet, materializing the mailbox entry. -/
theorem send_packet_enqueues (s : SwitchState) (d d' : String) (p : Packet) :
    getQueue (send_packet s d p) d'
      = (if d' = d then getQueue s d ++ [p] else getQueue s d')
    ∧ (getAssoc (send_packet s d p) d).isSome = true := by
  constructor
  · by_cases h : d' = d
    · subst h; simp [getQueue_send_self]
    · simp [h, getQueue_send_ne _ _ _ _ h]
  · simp [send_packet, getAssoc_setAssoc_self]

/-- C4: `receive_packet` returns the oldest packet of the destination's
mailbox when one is present and `none` otherwise; and after any sequence of
sends to one destination, successive receives return the mailbox contents —
the previously queued packets followed by the sent ones — in arrival (FIFO)
order. -/
theorem receive_oldest_and_fifo (s : SwitchState) (d : String) :
    (receive_packet s d).1 = (getQueue s d).head?
    ∧ ∀ ps : List Packet,
        (drainAux d (getQueue s d ++ ps).length (sendAll s d ps)).1
          = getQueue s d ++ ps := by
  constructor
  · cases hq : getQueue s d <;> simp [receive_packet, hq]
  · intro ps
    exact drainAux_exact d (getQueue s d ++ ps) (sendAll s d ps)
      (getQueue_sendAll_self d ps s)

/-- C5: starting a new simulation while any router thread from a previous
run is still alive returns the busy result and leaves the controller state —
including the previous run's router threads — completely unchanged. -/
theorem busy_rejects_new_run (st : ControllerState) (devices : List (String × Device))
    (topology : List Link) (h : st.router_threads.any (fun t => t.alive) = true) :
    startSimulation st devices topology = (.busy, st) := by
  simp [startSimulation, h]

theorem busy_rejects_new_run_witness :
    busyState.router_threads.any (fun t => t.alive) = true
    ∧ startSimulation busyState sampleDevices [sampleLink] = (.busy, busyState) :=
  ⟨rfl, busy_rejects_new_run busyState sampleDevices [sampleLink] rfl⟩

/-- C2 (code bug): the claim says `build` never raises and skips an
interface missing its mask; in the code the membership guard checks only
`ip_address`, and the `except` clause catches only `ValueError`, so an
interface carrying an address but no `subnet_mask` key raises an uncaught
`KeyError` instead of being skipped. This theorem evaluates the embedded
`build_topology` at such an input. -/
theorem build_raises_on_missing_mask :
    build_topology [("A", maskMissingA), ("B", sampleR2)]
      = .error (.keyError "subnet_mask") := by rfl

/-- C6 (code bug): the claim says a Router's hostname defaults to the device
id when the device declares no hostname; in the code `parse_config_file`
always seeds the `hostname` key with `None`, so `config_data.get("hostname",
device_id)` returns `None` for such a device and the `device_id` default
never applies. This theorem evaluates parsing plus `Router.__init__` on a
config with no hostname line. -/
theorem hostname_default_never_applies :
    parse_config_file "R1" ["interface Gi0/1"] = .ok ("R1", noHostnameDevice)
    ∧ (mkRouter "R1" noHostnameDevice []).hostname = none := ⟨rfl, rfl⟩

/-! ## Router loop lemmas -/

theorem helloLoop_spec (h : Option String) (now : Int) (ns : List String) :
    ∀ (st : RouterState) (sw : SwitchState),
      (helloLoop h now ns st sw).2.2 = ns.map (fun nb => (nb, helloPacket h))
      ∧ (helloLoop h now ns st sw).1.log = st.log ++ ns.map (sentEntry now h)
      ∧ ∀ d : String, getQueue (helloLoop h now ns st sw).2.1 d
          = getQueue sw d ++ List.replicate (ns.count d) (helloPacket h) := by
  induction ns with
  | nil => intro st sw; simp [helloLoop]
  | cons nb rest ih =>
    intro st sw
    obtain ⟨ihs, ihl, ihq⟩ :=
      ih { st with log := st.log ++ [sentEntry now h nb] }
        (send_packet sw nb (helloPacket h))
    refine ⟨?_, ?_, ?_⟩
    · simp [helloLoop, ihs]
    · simp [helloLoop, ihl]
    · intro d
      by_cases hd : d = nb
      · subst hd
        simp [helloLoop, ihq d, getQueue_send_self, List.count_cons,
          List.replicate_succ]
      · simp [helloLoop, ihq d, getQueue_send_ne _ _ _ _ hd, List.count_cons, hd]

theorem helloBroadcast_spec (r : RouterData) (now : Int) (st : RouterState)
    (sw : SwitchState) :
    (helloBroadcast r now st sw).2.2
        = r.neighbors.map (fun nb => (nb, helloPacket r.hostname))
    ∧ (helloBroadcast r now st sw).1.log
        = st.log ++ r.neighbors.map (sentEntry now r.hostname)
    ∧ ∀ d : String, getQueue (helloBroadcast r now st sw).2.1 d
        = getQueue sw d ++ List.replicate (r.neighbors.count d) (helloPacket r.hostname) := by
  obtain ⟨hs, hl, hq⟩ := helloLoop_spec r.hostname now r.neighbors st sw
  exact ⟨by simpa [helloBroadcast] using hs, by simpa [helloBroadcast] using hl,
    fun d => by simpa [helloBroadcast] using hq d⟩

theorem recvPhase_log_mono (r : RouterData) (now : Int) (st : RouterState)
    (sw : SwitchState) (e : LogEntry) (he : e ∈ st.log) :
    e ∈ (recvPhase r now st sw).1.log := by
  cases hr : (receive_packet sw r.device_id).1 with
  | none => simpa [recvPhase, hr] using he
  | some p => simp [recvPhase, hr, he]

theorem routerStep_log_mono (r : RouterData) (now : Int) (st : RouterState)
    (sw : SwitchState) (e : LogEntry) (he : e ∈ st.log) :
    e ∈ (routerStep r now st sw).1.log := by
  have hrec := recvPhase_log_mono r now st sw e he
  simp only [routerStep]
  split
  · rw [(helloBroadcast_spec r now _ _).2.1]
    exact List.mem_append_left _ hrec
  · exact hrec

theorem routerStep_sent_empty (r : RouterData) (now : Int) (st : RouterState)
    (sw : SwitchState) (hn : r.neighbors = []) :
    (routerStep r now st sw).2.2 = [] := by
  simp only [routerStep]
  split
  · rw [(helloBroadcast_spec r now _ _).1, hn]
    rfl
  · rfl

theorem runLoop_sent_empty (r : RouterData) (hn : r.neighbors = []) :
    ∀ (times : List Int) (st : RouterState) (sw : SwitchState),
      (runLoop r times st sw).2.2 = [] := by
  intro times
  induction times with
  | nil => intro st sw; rfl
  | cons now rest ih =>
    intro st sw
    simp [runLoop, routerStep_sent_empty r now st sw hn, ih]

theorem runLoop_log_mono (r : RouterData) :
    ∀ (times : List Int) (st : RouterState) (sw : SwitchState) (e : LogEntry),
      e ∈ st.log → e ∈ (runLoop r times st sw).1.log := by
  intro times
  induction times with
  | nil => intro st sw e he; exact he
  | cons now rest ih =>
    intro st sw e he
    exact ih _ _ e (routerStep_log_mono r now st sw e he)

/-! ## Claim theorems: router behaviour -/

/-- C3: on every hello broadcast, the router performs exactly one send per
entry of its fixed neighbor list — each packet tagged with the router's
hostname as source and the fixed discovery type `"OSPF_HELLO"` (the spec's
"HELLO" kind) — appends exactly one log entry per neighbor sent to, and each
destination mailbox receives exactly as many hello packets as the neighbor
list names it. -/
theorem hello_broadcast_per_neighbor (r : RouterData) (now : Int)
    (st : RouterState) (sw : SwitchState) :
    (helloBroadcast r now st sw).2.2
        = r.neighbors.map (fun nb => (nb, { source := r.hostname, type := "OSPF_HELLO" }))
    ∧ (helloBroadcast r now st sw).1.log
        = st.log ++ r.neighbors.map (sentEntry now r.hostname)
    ∧ ∀ d : String, getQueue (helloBroadcast r now st sw).2.1 d
        = getQueue sw d ++ List.replicate (r.neighbors.count d)
            { source := r.hostname, type := "OSPF_HELLO" } := by
  obtain ⟨hs, hl, hq⟩ := helloLoop_spec r.hostname now r.neighbors st sw
  exact ⟨by simpa [helloBroadcast, helloPacket] using hs,
    by simpa [helloBroadcast] using hl,
    fun d => by simpa [helloBroadcast, helloPacket] using hq d⟩

/-- C9: a Router constructed with an empty neighbor list performs no send at
all over a run of any length, and its log still contains the thread-started
entry and the thread-finished entry. -/
theorem empty_neighbors_run (id : String) (hn : Option String) (t0 t1 : Int)
    (times : List Int) (sw : SwitchState) :
    (routerRun ⟨id, hn, []⟩ t0 times t1 sw).2.2 = []
    ∧ startEntry t0 ⟨id, hn, []⟩ ∈ (routerRun ⟨id, hn, []⟩ t0 times t1 sw).1.log
    ∧ finishEntry t1 ⟨id, hn, []⟩ ∈ (routerRun ⟨id, hn, []⟩ t0 times t1 sw).1.log := by
  refine ⟨?_, ?_, ?_⟩
  · simpa [routerRun] using runLoop_sent_empty ⟨id, hn, []⟩ rfl times _ sw
  · simp only [routerRun]
    apply List.mem_append_left
    exact runLoop_log_mono ⟨id, hn, []⟩ times _ sw _ (by simp)
  · simp [routerRun]

theorem computeNeighbors_count (device_id other : String) (links : List Link) :
    (computeNeighbors device_id links).count other
      = links.countP (fun l => (l.from_device == device_id && l.to_device == other)
          || (l.to_device == device_id && l.from_device == other)) := by
  induction links with
  | nil => rfl
  | cons l t ih =>
    by_cases h1 : l.from_device = device_id
    · by_cases h2 : l.to_device = other
      · simp [computeNeighbors, h1, h2, List.count_cons, List.countP_cons, ih]
      · by_cases h3 : l.to_device = device_id
        · by_cases h4 : l.from_device = other
          · exact absurd (h3.trans (h1.symm.trans h4)) h2
          · simp [computeNeighbors, h1, h2, h3, h4, List.count_cons,
              List.countP_cons, ih, Ne.symm h2]
        · simp [computeNeighbors, h1, h2, h3, List.count_cons, List.countP_cons,
            ih, Ne.symm h2]
    · by_cases h3 : l.to_device = device_id
      · by_cases h4 : l.from_device = other
        · have h5 : ¬(other = device_id) := fun hh => h1 (h4.trans hh)
          simp [computeNeighbors, h1, h3, h4, h5, List.count_cons, List.countP_cons, ih]
        · simp [computeNeighbors, h1, h3, h4, List.count_cons, List.countP_cons,
            ih, Ne.symm h4]
      · simp [computeNeighbors, h1, h3, List.count_cons, List.countP_cons, ih]

/-- C10: a Router's neighbor list names the opposite endpoint of every link
that involves its device id, without deduplication: another device named by
`k` links appears `k` times in the list, and one hello broadcast therefore
performs `k` sends to it and appends `k` matching log entries. -/
theorem neighbor_multiplicity (device_id other : String) (links : List Link)
    (hn : Option String) (now : Int) (st : RouterState) (sw : SwitchState) :
    (computeNeighbors device_id links).count other
      = links.countP (fun l => (l.from_device == device_id && l.to_device == other)
          || (l.to_device == device_id && l.from_device == other))
    ∧ ((helloBroadcast ⟨device_id, hn, computeNeighbors device_id links⟩ now st sw).2.2.countP
          (fun s => s.1 == other))
      = (computeNeighbors device_id links).count other
    ∧ ((helloBroadcast ⟨device_id, hn, computeNeighbors device_id links⟩ now st sw).1.log.countP
          (fun e => e.message == "Sent \x27OSPF_HELLO\x27 to " ++ other))
      = st.log.countP (fun e => e.message == "Sent \x27OSPF_HELLO\x27 to " ++ other)
        + (computeNeighbors device_id links).count other := by
  obtain ⟨hs, hl, _⟩ :=
    helloBroadcast_spec ⟨device_id, hn, computeNeighbors device_id links⟩ now st sw
  refine ⟨computeNeighbors_count device_id other links, ?_, ?_⟩
  · rw [hs]
    simp only [List.countP_map, List.count_eq_countP]
    rfl
  · rw [hl, List.countP_append, List.countP_map]
    congr 1
    simp only [List.count_eq_countP]
    simp [Function.comp_def, sentEntry, string_append_beq]

/-! ## Claim theorems: topology inference -/

/-- C1: on any device mapping on which `build` returns (unique device ids,
unique interface names per device), and for any pair of distinct devices and
chosen interfaces of each, the returned list contains exactly one Link
connecting those two interfaces if and only if both interfaces have an IPv4
address and mask whose computed networks are equal, and zero such Links
otherwise. -/
theorem build_link_iff_same_network
    (devices : List (String × Device)) (links : List Link)
    (hnd : (devices.map Prod.fst).Nodup)
    (hifs : ∀ p ∈ devices, ((Prod.snd p).interfaces.map Prod.fst).Nodup)
    (hok : build_topology devices = .ok links)
    (d1 d2 n1 n2 : String) (dev1 dev2 : Device) (i1 i2 : Interface)
    (h1 : (d1, dev1) ∈ devices) (h2 : (d2, dev2) ∈ devices) (hne : d1 ≠ d2)
    (hi1 : (n1, i1) ∈ dev1.interfaces) (hi2 : (n2, i2) ∈ dev2.interfaces) :
    (links.countP (linkMatches d1 n1 d2 n2) = 1
        ↔ ((netOf i1).isSome = true ∧ netOf i1 = netOf i2))
    ∧ (¬((netOf i1).isSome = true ∧ netOf i1 = netOf i2) →
        links.countP (linkMatches d1 n1 d2 n2) = 0) := by
  have hls : links = pBuild devices := build_topology_ok hok
  subst hls
  have hc := pBuild_countP hne (hifs _ h1) (hifs _ h2) hi1 hi2 hnd h1 h2
  have hiff := sameNet_iff i1 i2
  by_cases hs : sameNet i1 i2
  · rw [hc, if_pos hs]
    exact ⟨⟨fun _ => hiff.mp hs, fun _ => rfl⟩,
      fun hcon => absurd (hiff.mp hs) hcon⟩
  · rw [hc, if_neg hs]
    exact ⟨⟨fun h0 => absurd h0 (by decide),
      fun hcond => absurd (hiff.mpr hcond) hs⟩, fun _ => rfl⟩

theorem build_link_iff_same_network_witness :
    ((sampleDevices.map Prod.fst).Nodup
      ∧ build_topology sampleDevices = .ok [sampleLink]
      ∧ ("R1" : String) ≠ "R2"
      ∧ ("Gi0/1", sampleIf1) ∈ sampleR1.interfaces
      ∧ ("Gi0/1", sampleIf2) ∈ sampleR2.interfaces)
    ∧ ([sampleLink].countP (linkMatches "R1" "Gi0/1" "R2" "Gi0/1") = 1
        ↔ ((netOf sampleIf1).isSome = true ∧ netOf sampleIf1 = netOf sampleIf2))
    ∧ (¬((netOf sampleIf1).isSome = true ∧ netOf sampleIf1 = netOf sampleIf2) →
        [sampleLink].countP (linkMatches "R1" "Gi0/1" "R2" "Gi0/1") = 0) :=
  ⟨⟨by decide, by rfl, by decide, by decide, by decide⟩,
    build_link_iff_same_network sampleDevices [sampleLink] (by decide)
      (by decide) (by rfl) "R1" "R2" "Gi0/1" "Gi0/1" sampleR1 sampleR2
      sampleIf1 sampleIf2 (by decide) (by decide) (by decide)
      (by decide) (by decide)⟩

/-- C8: on any device mapping with unique device ids on which `build`
returns, no returned Link connects a device to itself. -/
theorem no_self_link (devices : List (String × Device)) (links : List Link)
    (hnd : (devices.map Prod.fst).Nodup)
    (hok : build_topology devices = .ok links)
    (l : Link) (hl : l ∈ links) : l.from_device ≠ l.to_device := by
  have hls : links = pBuild devices := build_topology_ok hok
  subst hls
  exact pBuild_no_self hnd l hl

theorem no_self_link_witness :
    ((sampleDevices.map Prod.fst).Nodup
      ∧ build_topology sampleDevices = .ok [sampleLink]
      ∧ sampleLink ∈ [sampleLink])
    ∧ sampleLink.from_device ≠ sampleLink.to_device :=
  ⟨⟨by decide, by rfl, by decide⟩,
    no_self_link sampleDevices [sampleLink] (by decide) (by rfl) sampleLink
      (by decide)⟩

end NetworkTool
